import Mathlib

/-!
Shallow embedding of the `boardgames-macroquad` layout engine
(src/piece.rs, src/row.rs, src/assets.rs, src/lib.rs).

Rust `f32` values are modelled as rationals; the process-wide texture
registry (`ASSETS : HashMap<u32, Texture2D>`) is modelled as a partial map
from texture ids to texture dimensions; operations that panic on an
unresolved texture id are modelled in the `Option` monad, returning `none`
exactly when some required lookup fails.
-/

/-- Dimensions of a texture, as resolved by the asset registry
(macroquad `Texture2D`, reduced to its width and height). -/
structure Tex where
  width : ℚ
  height : ℚ
deriving DecidableEq, Repr

/-- The asset registry `ASSETS`: a partial map from texture id to texture. -/
def AssetMap : Type := Nat → Option Tex

/-- Model of macroquad `Vec2`. -/
structure Vec2 where
  x : ℚ
  y : ℚ
deriving DecidableEq, Repr

/-- One call to the opaque render collaborator
(`draw_texture_ex(texture, x, y, WHITE, params)` with
`dest_size = Some(vec2(w, h))`): the texture id drawn, the top-left
position, and the destination size. -/
structure RenderCall where
  tex : Nat
  x : ℚ
  y : ℚ
  w : ℚ
  h : ℚ
deriving DecidableEq, Repr

/-- A `Piece`: a texture id plus children `(child, rel_parent, rel_self)`. -/
inductive Piece where
  | mk (texture : Nat) (children : List (Piece × Vec2 × Vec2)) : Piece

/-- Field accessor for the texture id of a `Piece`
(the Rust field `Piece.texture`). -/
def Piece.tex : Piece → Nat
  | .mk t _ => t

/-- Field accessor for the children of a `Piece`. -/
def Piece.children : Piece → List (Piece × Vec2 × Vec2)
  | .mk _ c => c

/-- Rust `Piece::texture()`: resolve the texture id through the registry.
The Rust code panics (`expect`) when the id is missing; here that is the
`none` outcome. -/
def Piece.texture (a : AssetMap) (p : Piece) : Option Tex :=
  a p.tex

/-- Rust `Piece::add_child`: push `(piece, rel_parent, rel_self)`. -/
def Piece.add_child (p : Piece) (piece : Piece) (rel_parent rel_self : Vec2) : Piece :=
  .mk p.tex (p.children ++ [(piece, rel_parent, rel_self)])

/-- Loop body of Rust `Piece::width()` for one child `c` whose texture
resolved to `child_texture`: `child_x_offset = child_texture.width *
rel_self.x` lowers `left` when it is smaller, and `child_x_offset +
child_texture.width` raises `right` when it is larger. -/
def widthStep (lr : ℚ × ℚ) (c : Piece × Vec2 × Vec2) (child_texture : Tex) : ℚ × ℚ :=
  let child_x_offset := child_texture.width * c.2.2.x
  let left := if child_x_offset < lr.1 then child_x_offset else lr.1
  let curr_right := child_x_offset + child_texture.width
  let right := if curr_right > lr.2 then curr_right else lr.2
  (left, right)

/-- Loop body of Rust `Piece::height()`, `widthStep` on the y axis. -/
def heightStep (tb : ℚ × ℚ) (c : Piece × Vec2 × Vec2) (child_texture : Tex) : ℚ × ℚ :=
  let child_y_offset := child_texture.height * c.2.2.y
  let top := if child_y_offset < tb.1 then child_y_offset else tb.1
  let curr_bottom := child_y_offset + child_texture.height
  let bottom := if curr_bottom > tb.2 then curr_bottom else tb.2
  (top, bottom)

/-- Rust `Piece::width()`: starting from `left = 0.0`,
`right = texture().width()`, fold `widthStep` over the immediate
children; the result is `right - left`. -/
def Piece.width (a : AssetMap) (p : Piece) : Option ℚ := do
  let t ← a p.tex
  let lr ← p.children.foldlM (fun lr c => do
      let child_texture ← a c.1.tex
      pure (widthStep lr c child_texture))
    ((0 : ℚ), t.width)
  pure (lr.2 - lr.1)

/-- Rust `Piece::height()`: the same scan as `Piece.width` on the y axis. -/
def Piece.height (a : AssetMap) (p : Piece) : Option ℚ := do
  let t ← a p.tex
  let tb ← p.children.foldlM (fun tb c => do
      let child_texture ← a c.1.tex
      pure (heightStep tb c child_texture))
    ((0 : ℚ), t.height)
  pure (tb.2 - tb.1)

/-- Rust `impl Resizeable for Piece :: draw(location, adjustment)`:
returns the sequence of render calls issued, in order — the parent first
at `location` with size `texture * adjustment`, then each immediate child
in declaration order, offset by `parent_scaled * rel_parent` plus
`child_scaled * rel_self`. Children are drawn non-recursively.
This is the loop body for one child whose texture resolved to
`child_texture`. -/
def childDraw (location : Vec2) (parent_width parent_height adjustment : ℚ)
    (c : Piece × Vec2 × Vec2) (child_texture : Tex) : RenderCall :=
  let x_offset := location.x + parent_width * c.2.1.x
    + child_texture.width * adjustment * c.2.2.x
  let y_offset := location.y + parent_height * c.2.1.y
    + child_texture.height * adjustment * c.2.2.y
  RenderCall.mk c.1.tex x_offset y_offset
    (child_texture.width * adjustment) (child_texture.height * adjustment)

/-- Rust `impl Resizeable for Piece :: draw` continued: the full call
sequence, parent first, then the children in declaration order. -/
def Piece.draw (a : AssetMap) (p : Piece) (location : Vec2) (adjustment : ℚ) :
    Option (List RenderCall) := do
  let texture ← a p.tex
  let parent_width := texture.width * adjustment
  let parent_height := texture.height * adjustment
  let childCalls ← p.children.mapM (fun c => do
      let child_texture ← a c.1.tex
      pure (childDraw location parent_width parent_height adjustment c child_texture))
  pure (RenderCall.mk p.tex location.x location.y parent_width parent_height :: childCalls)

/-- A `Row`: items, running raw dimensions, and the spacing value.
The field named `spacing` in Rust is `spacingVal` here because the Rust
method of the same name is `Row.setSpacing` below. -/
structure Row where
  items : List Piece
  raw_width : ℚ
  raw_height : ℚ
  spacingVal : ℚ

/-- Rust `Row::new()` via `Row::default()`: no items, all fields zero. -/
def Row.new : Row :=
  { items := [], raw_width := 0, raw_height := 0, spacingVal := 0 }

/-- Rust `Row::spacing(spacing)`: recompute `raw_width` as
`spacing * (len + 1) + sum of item widths`, recompute `raw_height` as
`spacing * 2` plus the maximum item height found by a scan starting at
`0.0`, then store the new spacing. -/
def Row.setSpacing (a : AssetMap) (r : Row) (spacing : ℚ) : Option Row := do
  let widths ← r.items.mapM (Piece.width a)
  let items_width := widths.sum
  let raw_width := spacing * ((r.items.length : ℚ) + 1) + items_width
  let heights ← r.items.mapM (Piece.height a)
  let max_height := heights.foldl (fun max_height h =>
    if h > max_height then h else max_height) 0
  pure { items := r.items, raw_width := raw_width,
         raw_height := spacing * 2 + max_height, spacingVal := spacing }

/-- Rust `Row::add(item)`: bump `raw_width` by `item.width() + spacing`,
set `raw_height` to `item.height()` when `item.height() + spacing`
exceeds it, and push the item. -/
def Row.add (a : AssetMap) (r : Row) (item : Piece) : Option Row := do
  let w ← item.width a
  let h ← item.height a
  pure { items := r.items ++ [item],
         raw_width := r.raw_width + (w + r.spacingVal),
         raw_height := if h + r.spacingVal > r.raw_height then h else r.raw_height,
         spacingVal := r.spacingVal }

/-- Rust `Row::height()`: `raw_height * (screen_width() / raw_width)`.
The division is unguarded in the source; rational division by zero is the
(junk) value `0` here, standing in for the unguarded IEEE division. -/
def Row.height (screen_width : ℚ) (r : Row) : ℚ :=
  r.raw_height * (screen_width / r.raw_width)

/-- Rust `Row::draw(location)`: compute
`adjustment = screen_width() / raw_width`, start the cursor at
`location + (spacing * adjustment, spacing * adjustment)`, draw each item
at the cursor and advance the cursor x by
`item.width() * adjustment + spacing * adjustment + extension` with
`extension = 0.0`. Returns the accumulated render calls and the final
cursor x position. This is the loop body for one item. -/
def Row.drawStep (a : AssetMap) (curr_y adjustment spacing : ℚ)
    (st : List RenderCall × ℚ) (item : Piece) : Option (List RenderCall × ℚ) := do
  let calls ← item.draw a (Vec2.mk st.2 curr_y) adjustment
  let w ← item.width a
  let extension : ℚ := 0
  pure (st.1 ++ calls, st.2 + w * adjustment + spacing * adjustment + extension)

/-- Rust `Row::draw(location)` continued: fold `Row.drawStep` over the
items, starting from no calls and the initial cursor. -/
def Row.draw (a : AssetMap) (screen_width : ℚ) (r : Row) (location : Vec2) :
    Option (List RenderCall × ℚ) :=
  let adjustment := screen_width / r.raw_width
  let curr_y := location.y + r.spacingVal * adjustment
  r.items.foldlM (Row.drawStep a curr_y adjustment r.spacingVal)
    ([], location.x + r.spacingVal * adjustment)

/-- Rows reachable by any sequence of `new()`, `spacing(v)` and
`add(item)` calls whose texture lookups all resolve, against a fixed
asset registry. -/
inductive Row.Reachable (a : AssetMap) : Row → Prop where
  | new : Row.Reachable a Row.new
  | setSpacing {r r2 : Row} {v : ℚ} (h : Row.Reachable a r)
      (hs : Row.setSpacing a r v = some r2) : Row.Reachable a r2
  | add {r r2 : Row} {item : Piece} (h : Row.Reachable a r)
      (ha : Row.add a r item = some r2) : Row.Reachable a r2

/-- Specification-side width, following the spec text for §4.1: the
bounding box is `right - left` where `left` is the minimum of `0` and
every child offset `child_texture_width * rel_self.x`, and `right` is the
maximum of the own texture width and every `child_offset +
child_texture_width`. To be compared with `Piece.width`. -/
def Piece.widthSpec (a : AssetMap) (p : Piece) : Option ℚ := do
  let t ← a p.tex
  let spans ← p.children.mapM (fun c => do
      let ct ← a c.1.tex
      pure (ct.width * c.2.2.x, ct.width * c.2.2.x + ct.width))
  pure ((spans.map Prod.snd).foldl max t.width - (spans.map Prod.fst).foldl min 0)

/-- Specification-side height, `Piece.widthSpec` on the y axis. -/
def Piece.heightSpec (a : AssetMap) (p : Piece) : Option ℚ := do
  let t ← a p.tex
  let spans ← p.children.mapM (fun c => do
      let ct ← a c.1.tex
      pure (ct.height * c.2.2.y, ct.height * c.2.2.y + ct.height))
  pure ((spans.map Prod.snd).foldl max t.height - (spans.map Prod.fst).foldl min 0)

/-- Specification-side drawing, following the spec text for §4.1 draw:
the parent render call first, then one render call per immediate child in
declaration order, at `location + parent_scaled_size * rel_parent +
child_scaled_size * rel_self` with size `child_texture_size *
adjustment`; nothing at all for grandchildren. To be compared with
`Piece.draw`. -/
def Piece.drawSpec (a : AssetMap) (p : Piece) (location : Vec2) (adjustment : ℚ) :
    Option (List RenderCall) := do
  let t ← a p.tex
  let cts ← p.children.mapM (fun c => a c.1.tex)
  pure (RenderCall.mk p.tex location.x location.y (t.width * adjustment) (t.height * adjustment)
    :: (p.children.zip cts).map (fun z =>
        RenderCall.mk z.1.1.tex
          (location.x + t.width * adjustment * z.1.2.1.x
            + z.2.width * adjustment * z.1.2.2.x)
          (location.y + t.height * adjustment * z.1.2.1.y
            + z.2.height * adjustment * z.1.2.2.y)
          (z.2.width * adjustment) (z.2.height * adjustment)))

/-- Replace every child of `p` by a childless piece with the same texture
id, keeping both offset fractions: erases exactly the grandchildren. -/
def Piece.stripGrandchildren (p : Piece) : Piece :=
  .mk p.tex (p.children.map (fun c => (Piece.mk c.1.tex [], c.2.1, c.2.2)))

/-- Replace every child's `rel_parent` fraction of `p` by `v`. -/
def Piece.setRelParents (p : Piece) (v : Vec2) : Piece :=
  .mk p.tex (p.children.map (fun c => (c.1, v, c.2.2)))

/-- Incremental population of a `Row`: repeated `Row.add`. -/
def Row.addAll (a : AssetMap) (r : Row) (ps : List Piece) : Option Row :=
  ps.foldlM (Row.add a) r

/-- A `Row` whose stored `raw_width` agrees with the from-scratch
recomputation formula used by `Row.setSpacing`. -/
def Row.Consistent (a : AssetMap) (r : Row) : Prop :=
  ∃ ws : List ℚ, r.items.mapM (Piece.width a) = some ws ∧
    r.raw_width = r.spacingVal * ((r.items.length : ℚ) + 1) + ws.sum

/-- Concrete registry with one texture: id 0 resolves to 50 by 5. -/
def exImgA : AssetMap := fun n => if n = 0 then some (Tex.mk 50 5) else none

/-- A childless piece over texture 0. -/
def exPieceA : Piece := Piece.mk 0 []

/-- A piece over texture 0 with one child over texture 0, anchored at the
parent's right edge and centered on itself horizontally. -/
def exPieceC : Piece :=
  Piece.mk 0 [(Piece.mk 0 [], Vec2.mk 1 0, Vec2.mk (-(1 / 2)) 0)]

/-- The row obtained from `Row.new` by `setSpacing 10` over `exImgA`. -/
def exRowA1 : Row := { items := [], raw_width := 10, raw_height := 20, spacingVal := 10 }

/-- The row obtained from `exRowA1` by `add exPieceA` over `exImgA`. -/
def exRowA2 : Row :=
  { items := [exPieceA], raw_width := 70, raw_height := 20, spacingVal := 10 }

/-- The row obtained from `exRowA2` by `setSpacing 3` over `exImgA`. -/
def exRowA4 : Row :=
  { items := [exPieceA], raw_width := 56, raw_height := 11, spacingVal := 3 }

/-- The row obtained from `exRowA2` by `add exPieceA` over `exImgA`. -/
def exRowA5 : Row :=
  { items := [exPieceA, exPieceA], raw_width := 130, raw_height := 20, spacingVal := 10 }

/-- Concrete registry with three textures: 50 by 5, 60 by 6, 70 by 7. -/
def exImgB : AssetMap := fun n =>
  if n = 0 then some (Tex.mk 50 5)
  else if n = 1 then some (Tex.mk 60 6)
  else if n = 2 then some (Tex.mk 70 7)
  else none

/-- Childless piece over texture 0 of `exImgB` (width 50). -/
def exPieceB0 : Piece := Piece.mk 0 []

/-- Childless piece over texture 1 of `exImgB` (width 60). -/
def exPieceB1 : Piece := Piece.mk 1 []

/-- Childless piece over texture 2 of `exImgB` (width 70). -/
def exPieceB2 : Piece := Piece.mk 2 []

/-- The row obtained from `Row.new` by `setSpacing 10` over `exImgB`. -/
def exRowB1 : Row := { items := [], raw_width := 10, raw_height := 20, spacingVal := 10 }

/-- The row obtained from `exRowB1` by adding the three pieces of widths
50, 60, 70 over `exImgB`: incremental raw width 220. -/
def exRowB2 : Row :=
  { items := [exPieceB0, exPieceB1, exPieceB2], raw_width := 220,
    raw_height := 20, spacingVal := 10 }

/-- The row obtained from `exRowB2` by `setSpacing 10` over `exImgB`:
the from-scratch recomputation, raw width again 220. -/
def exRowB3 : Row :=
  { items := [exPieceB0, exPieceB1, exPieceB2], raw_width := 220,
    raw_height := 27, spacingVal := 10 }

lemma foldlM_resolve {γ : Type} (a : AssetMap) (g : γ → Piece × Vec2 × Vec2 → Tex → γ)
    (cs : List (Piece × Vec2 × Vec2)) (init : γ) :
    cs.foldlM (fun s c => do
        let child_texture ← a c.1.tex
        pure (g s c child_texture)) init
      = (cs.mapM (fun c => a c.1.tex)).map
          (fun l => (cs.zip l).foldl (fun s z => g s z.1 z.2) init) := by
  rw [← List.mapM'_eq_mapM]
  induction cs generalizing init with
  | nil => rfl
  | cons c cs ih =>
    cases h : a c.1.tex with
    | none =>
      rw [List.foldlM_cons]
      simp only [List.mapM', h]
      rfl
    | some ct =>
      rw [List.foldlM_cons]
      simp only [List.mapM', h]
      show List.foldlM _ (g init c ct) cs = _
      rw [ih]
      cases hm : cs.mapM' (fun x => a x.1.tex) with
      | none => simp [hm]
      | some l => simp [hm]

lemma mapM_resolve {β : Type} (a : AssetMap) (g : Piece × Vec2 × Vec2 → Tex → β)
    (cs : List (Piece × Vec2 × Vec2)) :
    cs.mapM (fun c => do
        let child_texture ← a c.1.tex
        pure (g c child_texture))
      = (cs.mapM (fun c => a c.1.tex)).map
          (fun l => (cs.zip l).map (fun z => g z.1 z.2)) := by
  rw [← List.mapM'_eq_mapM, ← List.mapM'_eq_mapM]
  induction cs with
  | nil => rfl
  | cons c cs ih =>
    cases h : a c.1.tex with
    | none =>
      simp only [List.mapM', h]
      rfl
    | some ct =>
      simp only [List.mapM', h]
      rw [show ((some ct >>= fun b => cs.mapM' (fun c => a c.1.tex)
            >>= fun bs => pure (b :: bs)) : Option (List Tex))
          = (cs.mapM' (fun c => a c.1.tex)).map (fun bs => ct :: bs) from by
        cases hm : cs.mapM' (fun c => a c.1.tex) <;> simp [hm]]
      rw [ih]
      cases hm : cs.mapM' (fun x => a x.1.tex) with
      | none => simp [hm]
      | some l => simp [hm]

lemma widthStep_min_max (lr : ℚ × ℚ) (c : Piece × Vec2 × Vec2) (ct : Tex) :
    widthStep lr c ct
      = (min lr.1 (ct.width * c.2.2.x), max lr.2 (ct.width * c.2.2.x + ct.width)) := by
  unfold widthStep
  by_cases h1 : ct.width * c.2.2.x < lr.1 <;>
    by_cases h2 : ct.width * c.2.2.x + ct.width > lr.2 <;>
      simp [h1, h2, min_def, max_def, le_of_lt, not_lt.1, *]

lemma heightStep_min_max (tb : ℚ × ℚ) (c : Piece × Vec2 × Vec2) (ct : Tex) :
    heightStep tb c ct
      = (min tb.1 (ct.height * c.2.2.y), max tb.2 (ct.height * c.2.2.y + ct.height)) := by
  unfold heightStep
  by_cases h1 : ct.height * c.2.2.y < tb.1 <;>
    by_cases h2 : ct.height * c.2.2.y + ct.height > tb.2 <;>
      simp [h1, h2, min_def, max_def, le_of_lt, not_lt.1, *]

lemma foldl_widthStep (zl : List ((Piece × Vec2 × Vec2) × Tex)) (x y : ℚ) :
    zl.foldl (fun s z => widthStep s z.1 z.2) (x, y)
      = ((zl.map (fun z => z.2.width * z.1.2.2.x)).foldl min x,
         (zl.map (fun z => z.2.width * z.1.2.2.x + z.2.width)).foldl max y) := by
  induction zl generalizing x y with
  | nil => simp
  | cons z zs ih =>
    simp only [List.foldl_cons, List.map_cons]
    rw [widthStep_min_max, ih]

lemma foldl_heightStep (zl : List ((Piece × Vec2 × Vec2) × Tex)) (x y : ℚ) :
    zl.foldl (fun s z => heightStep s z.1 z.2) (x, y)
      = ((zl.map (fun z => z.2.height * z.1.2.2.y)).foldl min x,
         (zl.map (fun z => z.2.height * z.1.2.2.y + z.2.height)).foldl max y) := by
  induction zl generalizing x y with
  | nil => simp
  | cons z zs ih =>
    simp only [List.foldl_cons, List.map_cons]
    rw [heightStep_min_max, ih]

lemma width_eq_form (a : AssetMap) (p : Piece) :
    p.width a = (a p.tex).bind (fun t =>
      (p.children.mapM (fun c => a c.1.tex)).map (fun l =>
        ((p.children.zip l).map (fun z => z.2.width * z.1.2.2.x + z.2.width)).foldl max t.width
          - ((p.children.zip l).map (fun z => z.2.width * z.1.2.2.x)).foldl min 0)) := by
  unfold Piece.width
  cases ht : a p.tex with
  | none => rfl
  | some t =>
    show (Option.bind (List.foldlM (fun lr c => do
        let child_texture ← a c.1.tex
        pure (widthStep lr c child_texture)) ((0 : ℚ), t.width) p.children)
      (fun lr => some (lr.2 - lr.1))) = _
    rw [foldlM_resolve a widthStep p.children ((0 : ℚ), t.width)]
    cases hm : p.children.mapM (fun c => a c.1.tex) with
    | none => rfl
    | some l =>
      simp only [foldl_widthStep]
      rfl

lemma height_eq_form (a : AssetMap) (p : Piece) :
    p.height a = (a p.tex).bind (fun t =>
      (p.children.mapM (fun c => a c.1.tex)).map (fun l =>
        ((p.children.zip l).map (fun z => z.2.height * z.1.2.2.y + z.2.height)).foldl max t.height
          - ((p.children.zip l).map (fun z => z.2.height * z.1.2.2.y)).foldl min 0)) := by
  unfold Piece.height
  cases ht : a p.tex with
  | none => rfl
  | some t =>
    show (Option.bind (List.foldlM (fun tb c => do
        let child_texture ← a c.1.tex
        pure (heightStep tb c child_texture)) ((0 : ℚ), t.height) p.children)
      (fun tb => some (tb.2 - tb.1))) = _
    rw [foldlM_resolve a heightStep p.children ((0 : ℚ), t.height)]
    cases hm : p.children.mapM (fun c => a c.1.tex) with
    | none => rfl
    | some l =>
      simp only [foldl_heightStep]
      rfl

lemma mapM_map {α β γ : Type} (F : α → β) (f : β → Option γ) (cs : List α) :
    (cs.map F).mapM f = cs.mapM (fun c => f (F c)) := by
  rw [← List.mapM'_eq_mapM, ← List.mapM'_eq_mapM]
  induction cs with
  | nil => rfl
  | cons c cs ih => simp only [List.map_cons, List.mapM', ih]

lemma zip_map_eval {β : Type} (F : Piece × Vec2 × Vec2 → Piece × Vec2 × Vec2)
    (G : (Piece × Vec2 × Vec2) × Tex → β)
    (hG : ∀ c t, G (F c, t) = G (c, t))
    (cs : List (Piece × Vec2 × Vec2)) (l : List Tex) :
    ((cs.map F).zip l).map G = (cs.zip l).map G := by
  induction cs generalizing l with
  | nil => simp
  | cons c cs ih =>
    cases l with
    | nil => simp
    | cons t l => simp [List.zip_cons_cons, ih, hG c t]

lemma widthSpec_eq_form (a : AssetMap) (p : Piece) :
    p.widthSpec a = (a p.tex).bind (fun t =>
      (p.children.mapM (fun c => a c.1.tex)).map (fun l =>
        ((p.children.zip l).map (fun z => z.2.width * z.1.2.2.x + z.2.width)).foldl max t.width
          - ((p.children.zip l).map (fun z => z.2.width * z.1.2.2.x)).foldl min 0)) := by
  unfold Piece.widthSpec
  cases ht : a p.tex with
  | none => rfl
  | some t =>
    show (Option.bind (p.children.mapM (fun c => do
        let ct ← a c.1.tex
        pure (ct.width * c.2.2.x, ct.width * c.2.2.x + ct.width)))
      (fun spans => some ((spans.map Prod.snd).foldl max t.width
        - (spans.map Prod.fst).foldl min 0))) = _
    rw [mapM_resolve a
      (fun c ct => (ct.width * c.2.2.x, ct.width * c.2.2.x + ct.width)) p.children]
    cases hm : p.children.mapM (fun c => a c.1.tex) with
    | none => rfl
    | some l =>
      simp only [Option.map_some', Option.some_bind]
      rw [List.map_map, List.map_map]
      rfl

lemma heightSpec_eq_form (a : AssetMap) (p : Piece) :
    p.heightSpec a = (a p.tex).bind (fun t =>
      (p.children.mapM (fun c => a c.1.tex)).map (fun l =>
        ((p.children.zip l).map (fun z => z.2.height * z.1.2.2.y + z.2.height)).foldl max t.height
          - ((p.children.zip l).map (fun z => z.2.height * z.1.2.2.y)).foldl min 0)) := by
  unfold Piece.heightSpec
  cases ht : a p.tex with
  | none => rfl
  | some t =>
    show (Option.bind (p.children.mapM (fun c => do
        let ct ← a c.1.tex
        pure (ct.height * c.2.2.y, ct.height * c.2.2.y + ct.height)))
      (fun spans => some ((spans.map Prod.snd).foldl max t.height
        - (spans.map Prod.fst).foldl min 0))) = _
    rw [mapM_resolve a
      (fun c ct => (ct.height * c.2.2.y, ct.height * c.2.2.y + ct.height)) p.children]
    cases hm : p.children.mapM (fun c => a c.1.tex) with
    | none => rfl
    | some l =>
      simp only [Option.map_some', Option.some_bind]
      rw [List.map_map, List.map_map]
      rfl

lemma width_eq_widthSpec (a : AssetMap) (p : Piece) : p.width a = p.widthSpec a := by
  rw [width_eq_form, widthSpec_eq_form]

lemma height_eq_heightSpec (a : AssetMap) (p : Piece) : p.height a = p.heightSpec a := by
  rw [height_eq_form, heightSpec_eq_form]

lemma width_map_children (a : AssetMap) (p : Piece)
    (F : Piece × Vec2 × Vec2 → Piece × Vec2 × Vec2)
    (htex : ∀ c, (F c).1.tex = c.1.tex)
    (hrel : ∀ c, (F c).2.2 = c.2.2) :
    (Piece.mk p.tex (p.children.map F)).width a = p.width a := by
  rw [width_eq_form, width_eq_form]
  have e1 : (Piece.mk p.tex (p.children.map F)).children = p.children.map F := rfl
  have e2 : (Piece.mk p.tex (p.children.map F)).tex = p.tex := rfl
  rw [e1, e2, mapM_map]
  have hres : p.children.mapM (fun c => a (F c).1.tex)
      = p.children.mapM (fun c => a c.1.tex) := by
    congr 1
    funext c
    rw [htex c]
  rw [hres]
  cases ht : a p.tex with
  | none => rfl
  | some t =>
    cases hm : p.children.mapM (fun c => a c.1.tex) with
    | none => rfl
    | some l =>
      simp only [Option.map_some', Option.some_bind]
      rw [zip_map_eval F _ (fun c t => by rw [show (F c, t).1.2.2.x = c.2.2.x from by
            rw [show (F c, t).1.2.2 = c.2.2 from hrel c]]) p.children l,
          zip_map_eval F _ (fun c t => by rw [show (F c, t).1.2.2.x = c.2.2.x from by
            rw [show (F c, t).1.2.2 = c.2.2 from hrel c]]) p.children l]

lemma height_map_children (a : AssetMap) (p : Piece)
    (F : Piece × Vec2 × Vec2 → Piece × Vec2 × Vec2)
    (htex : ∀ c, (F c).1.tex = c.1.tex)
    (hrel : ∀ c, (F c).2.2 = c.2.2) :
    (Piece.mk p.tex (p.children.map F)).height a = p.height a := by
  rw [height_eq_form, height_eq_form]
  have e1 : (Piece.mk p.tex (p.children.map F)).children = p.children.map F := rfl
  have e2 : (Piece.mk p.tex (p.children.map F)).tex = p.tex := rfl
  rw [e1, e2, mapM_map]
  have hres : p.children.mapM (fun c => a (F c).1.tex)
      = p.children.mapM (fun c => a c.1.tex) := by
    congr 1
    funext c
    rw [htex c]
  rw [hres]
  cases ht : a p.tex with
  | none => rfl
  | some t =>
    cases hm : p.children.mapM (fun c => a c.1.tex) with
    | none => rfl
    | some l =>
      simp only [Option.map_some', Option.some_bind]
      rw [zip_map_eval F _ (fun c t => by rw [show (F c, t).1.2.2.y = c.2.2.y from by
            rw [show (F c, t).1.2.2 = c.2.2 from hrel c]]) p.children l,
          zip_map_eval F _ (fun c t => by rw [show (F c, t).1.2.2.y = c.2.2.y from by
            rw [show (F c, t).1.2.2 = c.2.2 from hrel c]]) p.children l]

lemma width_strip (a : AssetMap) (p : Piece) :
    (p.stripGrandchildren).width a = p.width a :=
  width_map_children a p _ (fun _ => rfl) (fun _ => rfl)

lemma height_strip (a : AssetMap) (p : Piece) :
    (p.stripGrandchildren).height a = p.height a :=
  height_map_children a p _ (fun _ => rfl) (fun _ => rfl)

lemma width_setRelParents (a : AssetMap) (p : Piece) (v : Vec2) :
    (p.setRelParents v).width a = p.width a :=
  width_map_children a p _ (fun _ => rfl) (fun _ => rfl)

lemma height_setRelParents (a : AssetMap) (p : Piece) (v : Vec2) :
    (p.setRelParents v).height a = p.height a :=
  height_map_children a p _ (fun _ => rfl) (fun _ => rfl)

lemma foldl_min_le (l : List ℚ) (x : ℚ) : l.foldl min x ≤ x := by
  induction l generalizing x with
  | nil => simp
  | cons y l ih =>
    simp only [List.foldl_cons]
    exact le_trans (ih (min x y)) (min_le_left x y)

lemma le_foldl_max (l : List ℚ) (x : ℚ) : x ≤ l.foldl max x := by
  induction l generalizing x with
  | nil => simp
  | cons y l ih =>
    simp only [List.foldl_cons]
    exact le_trans (le_max_left x y) (ih (max x y))

lemma draw_eq_form (a : AssetMap) (p : Piece) (location : Vec2) (adjustment : ℚ) :
    p.draw a location adjustment = (a p.tex).bind (fun texture =>
      (p.children.mapM (fun c => a c.1.tex)).map (fun l =>
        RenderCall.mk p.tex location.x location.y (texture.width * adjustment)
          (texture.height * adjustment)
        :: (p.children.zip l).map (fun z =>
            childDraw location (texture.width * adjustment) (texture.height * adjustment)
              adjustment z.1 z.2))) := by
  unfold Piece.draw
  cases ht : a p.tex with
  | none => rfl
  | some texture =>
    show (Option.bind (p.children.mapM (fun c => do
        let child_texture ← a c.1.tex
        pure (childDraw location (texture.width * adjustment) (texture.height * adjustment)
          adjustment c child_texture)))
      (fun childCalls => some (RenderCall.mk p.tex location.x location.y
        (texture.width * adjustment) (texture.height * adjustment) :: childCalls))) = _
    rw [mapM_resolve a (childDraw location (texture.width * adjustment)
      (texture.height * adjustment) adjustment) p.children]
    cases hm : p.children.mapM (fun c => a c.1.tex) with
    | none => rfl
    | some l => rfl

lemma draw_eq_drawSpec (a : AssetMap) (p : Piece) (location : Vec2) (adjustment : ℚ) :
    p.draw a location adjustment = p.drawSpec a location adjustment := by
  rw [draw_eq_form]
  unfold Piece.drawSpec
  cases ht : a p.tex with
  | none => rfl
  | some t =>
    cases hm : p.children.mapM (fun c => a c.1.tex) with
    | none => rfl
    | some l => rfl

lemma draw_map_children (a : AssetMap) (p : Piece) (location : Vec2) (adjustment : ℚ)
    (F : Piece × Vec2 × Vec2 → Piece × Vec2 × Vec2)
    (htex : ∀ c, (F c).1.tex = c.1.tex)
    (hrp : ∀ c, (F c).2.1 = c.2.1)
    (hrs : ∀ c, (F c).2.2 = c.2.2) :
    (Piece.mk p.tex (p.children.map F)).draw a location adjustment
      = p.draw a location adjustment := by
  rw [draw_eq_form, draw_eq_form]
  have e1 : (Piece.mk p.tex (p.children.map F)).children = p.children.map F := rfl
  have e2 : (Piece.mk p.tex (p.children.map F)).tex = p.tex := rfl
  rw [e1, e2, mapM_map]
  have hres : p.children.mapM (fun c => a (F c).1.tex)
      = p.children.mapM (fun c => a c.1.tex) := by
    congr 1
    funext c
    rw [htex c]
  rw [hres]
  cases ht : a p.tex with
  | none => rfl
  | some t =>
    cases hm : p.children.mapM (fun c => a c.1.tex) with
    | none => rfl
    | some l =>
      simp only [Option.map_some', Option.some_bind]
      rw [zip_map_eval F _ (fun c ct => by
        show childDraw location (t.width * adjustment) (t.height * adjustment)
            adjustment (F c) ct
          = childDraw location (t.width * adjustment) (t.height * adjustment)
            adjustment c ct
        unfold childDraw
        rw [htex c, hrp c, hrs c]) p.children l]

lemma draw_strip (a : AssetMap) (p : Piece) (location : Vec2) (adjustment : ℚ) :
    (p.stripGrandchildren).draw a location adjustment = p.draw a location adjustment :=
  draw_map_children a p location adjustment _ (fun _ => rfl) (fun _ => rfl) (fun _ => rfl)

lemma mapM_append_one {α β : Type} (f : α → Option β) (l : List α) (x : α)
    (ys : List β) (y : β) (hl : l.mapM f = some ys) (hx : f x = some y) :
    (l ++ [x]).mapM f = some (ys ++ [y]) := by
  rw [← List.mapM'_eq_mapM] at hl
  rw [← List.mapM'_eq_mapM]
  induction l generalizing ys with
  | nil =>
    simp only [List.mapM'] at hl
    cases hl
    simp [List.mapM', hx]
  | cons c l ih =>
    cases hfc : f c with
    | none => simp [List.mapM', hfc] at hl
    | some b =>
      cases hml : l.mapM' f with
      | none => simp [List.mapM', hfc, hml] at hl
      | some bs =>
        simp only [List.mapM', hfc, hml, Option.some_bind] at hl
        cases hl
        simp only [List.cons_append, List.mapM', List.append_eq, hfc, Option.some_bind]
        rw [ih bs hml]
        rfl

lemma setSpacing_eq (a : AssetMap) (r : Row) (v : ℚ) (r2 : Row)
    (h : Row.setSpacing a r v = some r2) :
    ∃ ws hs : List ℚ, r.items.mapM (Piece.width a) = some ws ∧
      r.items.mapM (Piece.height a) = some hs ∧
      r2 = { items := r.items,
             raw_width := v * ((r.items.length : ℚ) + 1) + ws.sum,
             raw_height := v * 2 + hs.foldl (fun max_height x =>
               if x > max_height then x else max_height) 0,
             spacingVal := v } := by
  unfold Row.setSpacing at h
  cases hw : r.items.mapM (Piece.width a) with
  | none => rw [hw] at h; exact absurd h (by simp)
  | some ws =>
    rw [hw] at h
    cases hh : r.items.mapM (Piece.height a) with
    | none => rw [hh] at h; exact absurd h (by simp)
    | some hs =>
      rw [hh] at h
      simp only [Option.some_bind] at h
      cases h
      exact ⟨ws, hs, rfl, rfl, rfl⟩

lemma add_eq (a : AssetMap) (r : Row) (item : Piece) (r2 : Row)
    (h : Row.add a r item = some r2) :
    ∃ w ht : ℚ, item.width a = some w ∧ item.height a = some ht ∧
      r2 = { items := r.items ++ [item],
             raw_width := r.raw_width + (w + r.spacingVal),
             raw_height := if ht + r.spacingVal > r.raw_height then ht else r.raw_height,
             spacingVal := r.spacingVal } := by
  unfold Row.add at h
  cases hw : item.width a with
  | none => rw [hw] at h; exact absurd h (by simp)
  | some w =>
    rw [hw] at h
    cases hh : item.height a with
    | none => rw [hh] at h; exact absurd h (by simp)
    | some ht =>
      rw [hh] at h
      cases h
      exact ⟨w, ht, rfl, rfl, rfl⟩

lemma consistent_new (a : AssetMap) : Row.Consistent a Row.new :=
  ⟨[], rfl, by simp [Row.new]⟩

lemma consistent_setSpacing (a : AssetMap) (r : Row) (v : ℚ) (r2 : Row)
    (h : Row.setSpacing a r v = some r2) : Row.Consistent a r2 := by
  obtain ⟨ws, hs, hw, hh, rfl⟩ := setSpacing_eq a r v r2 h
  exact ⟨ws, hw, rfl⟩

lemma consistent_add (a : AssetMap) (r : Row) (item : Piece) (r2 : Row)
    (hc : Row.Consistent a r) (h : Row.add a r item = some r2) : Row.Consistent a r2 := by
  obtain ⟨w, ht, hw, hh, rfl⟩ := add_eq a r item r2 h
  obtain ⟨ws, hws, hsum⟩ := hc
  refine ⟨ws ++ [w], mapM_append_one (Piece.width a) r.items item ws w hws hw, ?_⟩
  show r.raw_width + (w + r.spacingVal)
    = r.spacingVal * (((r.items ++ [item]).length : ℚ) + 1) + (ws ++ [w]).sum
  rw [hsum]
  rw [List.length_append, List.sum_append]
  push_cast
  simp only [List.length_cons, List.length_nil, List.sum_cons, List.sum_nil]
  ring

lemma reachable_consistent (a : AssetMap) (r : Row) (h : Row.Reachable a r) :
    Row.Consistent a r := by
  induction h with
  | new => exact consistent_new a
  | setSpacing h hs ih => exact consistent_setSpacing a _ _ _ hs
  | add h ha ih => exact consistent_add a _ _ _ ih ha

lemma addAll_consistent (a : AssetMap) (ps : List Piece) :
    ∀ (r r2 : Row), Row.Consistent a r → Row.addAll a r ps = some r2 →
      Row.Consistent a r2 ∧ r2.spacingVal = r.spacingVal := by
  induction ps with
  | nil =>
    intro r r2 hc h
    cases h
    exact ⟨hc, rfl⟩
  | cons p ps ih =>
    intro r r2 hc h
    cases ha : Row.add a r p with
    | none =>
      rw [Row.addAll, List.foldlM_cons, ha] at h
      exact absurd h (by simp)
    | some r1 =>
      have h2 : Row.addAll a r1 ps = some r2 := by
        rw [Row.addAll, List.foldlM_cons, ha] at h
        exact h
      obtain ⟨hc2, hsp⟩ := ih r1 r2 (consistent_add a r p r1 hc ha) h2
      refine ⟨hc2, ?_⟩
      rw [hsp]
      obtain ⟨w, ht, _, _, rfl⟩ := add_eq a r p r1 ha
      rfl

lemma draw_some_of_width (a : AssetMap) (p : Piece) (w : ℚ) (loc : Vec2) (adj : ℚ)
    (h : p.width a = some w) : ∃ cs, p.draw a loc adj = some cs := by
  rw [width_eq_form] at h
  rw [draw_eq_form]
  cases ht : a p.tex with
  | none => rw [ht] at h; exact absurd h (by simp)
  | some t =>
    rw [ht] at h
    cases hm : p.children.mapM (fun c => a c.1.tex) with
    | none => rw [hm] at h; exact absurd h (by simp)
    | some l =>
      exact ⟨_, rfl⟩

lemma row_foldl_draw (a : AssetMap) (cy adj s : ℚ) (items : List Piece) :
    ∀ (ws : List ℚ) (acc : List RenderCall × ℚ),
    items.mapM (Piece.width a) = some ws →
    ∃ calls : List RenderCall,
      items.foldlM (Row.drawStep a cy adj s) acc
        = some (calls, acc.2 + (ws.map (fun w => w * adj + s * adj)).sum) := by
  induction items with
  | nil =>
    intro ws acc h
    rw [← List.mapM'_eq_mapM] at h
    simp only [List.mapM'] at h
    cases h
    exact ⟨acc.1, by simp⟩
  | cons p items ih =>
    intro ws acc h
    rw [← List.mapM'_eq_mapM] at h
    cases hw : p.width a with
    | none => simp [List.mapM', hw] at h
    | some w =>
      cases hm : items.mapM' (Piece.width a) with
      | none => simp [List.mapM', hw, hm] at h
      | some ws2 =>
        simp only [List.mapM', hw, hm, Option.some_bind] at h
        cases h
        obtain ⟨cs, hcs⟩ := draw_some_of_width a p w (Vec2.mk acc.2 cy) adj hw
        have hstep : Row.drawStep a cy adj s acc p
            = some (acc.1 ++ cs, acc.2 + w * adj + s * adj + 0) := by
          unfold Row.drawStep
          rw [hcs, hw]
          rfl
        have hm2 : items.mapM (Piece.width a) = some ws2 := by
          rw [← List.mapM'_eq_mapM]
          exact hm
        obtain ⟨calls, hcalls⟩ :=
          ih ws2 (acc.1 ++ cs, acc.2 + w * adj + s * adj + 0) hm2
        refine ⟨calls, ?_⟩
        rw [List.foldlM_cons, hstep]
        show items.foldlM (Row.drawStep a cy adj s)
          (acc.1 ++ cs, acc.2 + w * adj + s * adj + 0) = _
        rw [hcalls]
        congr 2
        simp only [List.map_cons, List.sum_cons]
        ring

lemma mapM_nil_opt {α β : Type} (f : α → Option β) : ([] : List α).mapM f = some [] := rfl

lemma mapM_cons_opt {α β : Type} (f : α → Option β) (x : α) (l : List α) :
    (x :: l).mapM f = (f x).bind (fun y => (l.mapM f).bind (fun ys => some (y :: ys))) := by
  rw [List.mapM_cons]
  rfl

lemma exPieceA_width : Piece.width exImgA exPieceA = some 50 := by
  norm_num [exPieceA, exImgA, Piece.width, Piece.tex, Piece.children]

lemma exPieceA_height : Piece.height exImgA exPieceA = some 5 := by
  norm_num [exPieceA, exImgA, Piece.height, Piece.tex, Piece.children]

lemma setSpacing_new_10_A : Row.setSpacing exImgA Row.new 10 = some exRowA1 := by
  unfold Row.setSpacing
  rw [show Row.new.items = [] from rfl, mapM_nil_opt, mapM_nil_opt]
  norm_num [exRowA1, Row.new]

lemma add_exRowA1_A : Row.add exImgA exRowA1 exPieceA = some exRowA2 := by
  norm_num [Row.add, exRowA1, exRowA2, exPieceA_width, exPieceA_height]

lemma reach_exRowA2 : Row.Reachable exImgA exRowA2 :=
  Row.Reachable.add (Row.Reachable.setSpacing Row.Reachable.new setSpacing_new_10_A)
    add_exRowA1_A

lemma exPieceB0_width : Piece.width exImgB exPieceB0 = some 50 := by
  norm_num [exPieceB0, exImgB, Piece.width, Piece.tex, Piece.children]

lemma exPieceB0_height : Piece.height exImgB exPieceB0 = some 5 := by
  norm_num [exPieceB0, exImgB, Piece.height, Piece.tex, Piece.children]

lemma exPieceB1_width : Piece.width exImgB exPieceB1 = some 60 := by
  norm_num [exPieceB1, exImgB, Piece.width, Piece.tex, Piece.children]

lemma exPieceB1_height : Piece.height exImgB exPieceB1 = some 6 := by
  norm_num [exPieceB1, exImgB, Piece.height, Piece.tex, Piece.children]

lemma exPieceB2_width : Piece.width exImgB exPieceB2 = some 70 := by
  norm_num [exPieceB2, exImgB, Piece.width, Piece.tex, Piece.children]

lemma exPieceB2_height : Piece.height exImgB exPieceB2 = some 7 := by
  norm_num [exPieceB2, exImgB, Piece.height, Piece.tex, Piece.children]

lemma setSpacing_new_10_B : Row.setSpacing exImgB Row.new 10 = some exRowB1 := by
  unfold Row.setSpacing
  rw [show Row.new.items = [] from rfl, mapM_nil_opt, mapM_nil_opt]
  norm_num [exRowB1, Row.new]

/-- Intermediate row: `exRowB1` after adding `exPieceB0`. -/
def exRowB1a : Row :=
  { items := [exPieceB0], raw_width := 70, raw_height := 20, spacingVal := 10 }

/-- Intermediate row: `exRowB1a` after adding `exPieceB1`. -/
def exRowB1b : Row :=
  { items := [exPieceB0, exPieceB1], raw_width := 140, raw_height := 20, spacingVal := 10 }

lemma add_B0 : Row.add exImgB exRowB1 exPieceB0 = some exRowB1a := by
  norm_num [Row.add, exRowB1, exRowB1a, exPieceB0_width, exPieceB0_height]

lemma add_B1 : Row.add exImgB exRowB1a exPieceB1 = some exRowB1b := by
  norm_num [Row.add, exRowB1a, exRowB1b, exPieceB1_width, exPieceB1_height]

lemma add_B2 : Row.add exImgB exRowB1b exPieceB2 = some exRowB2 := by
  norm_num [Row.add, exRowB1b, exRowB2, exPieceB2_width, exPieceB2_height]

lemma addAll_B :
    Row.addAll exImgB exRowB1 [exPieceB0, exPieceB1, exPieceB2] = some exRowB2 := by
  rw [Row.addAll, List.foldlM_cons, add_B0]
  show Row.addAll exImgB exRowB1a [exPieceB1, exPieceB2] = some exRowB2
  rw [Row.addAll, List.foldlM_cons, add_B1]
  show Row.addAll exImgB exRowB1b [exPieceB2] = some exRowB2
  rw [Row.addAll, List.foldlM_cons, add_B2]
  rfl

lemma setSpacing_B2 : Row.setSpacing exImgB exRowB2 10 = some exRowB3 := by
  unfold Row.setSpacing
  rw [show exRowB2.items = [exPieceB0, exPieceB1, exPieceB2] from rfl]
  rw [mapM_cons_opt, mapM_cons_opt, mapM_cons_opt, mapM_nil_opt,
    exPieceB0_width, exPieceB1_width, exPieceB2_width]
  rw [mapM_cons_opt, mapM_cons_opt, mapM_cons_opt, mapM_nil_opt,
    exPieceB0_height, exPieceB1_height, exPieceB2_height]
  norm_num [exRowB2, exRowB3]

lemma reach_exRowB2 : Row.Reachable exImgB exRowB2 :=
  Row.Reachable.add
    (Row.Reachable.add
      (Row.Reachable.add
        (Row.Reachable.setSpacing Row.Reachable.new setSpacing_new_10_B)
        add_B0)
      add_B1)
    add_B2

lemma exPieceC_width : Piece.width exImgA exPieceC = some 75 := by
  norm_num [exPieceC, exImgA, Piece.width, Piece.tex, Piece.children,
    List.foldlM_cons, widthStep]

lemma exPieceC_height : Piece.height exImgA exPieceC = some 5 := by
  norm_num [exPieceC, exImgA, Piece.height, Piece.tex, Piece.children,
    List.foldlM_cons, heightStep]

lemma setSpacing_exRowA2_3 : Row.setSpacing exImgA exRowA2 3 = some exRowA4 := by
  unfold Row.setSpacing
  rw [show exRowA2.items = [exPieceA] from rfl]
  rw [mapM_cons_opt, mapM_nil_opt, exPieceA_width]
  rw [mapM_cons_opt, mapM_nil_opt, exPieceA_height]
  norm_num [exRowA2, exRowA4]

lemma add_exRowA2_A : Row.add exImgA exRowA2 exPieceA = some exRowA5 := by
  norm_num [Row.add, exRowA2, exRowA5, exPieceA_width, exPieceA_height]

lemma sum_map_affine (ws : List ℚ) (adj s : ℚ) :
    (ws.map (fun w => w * adj + s * adj)).sum
      = ws.sum * adj + (ws.length : ℚ) * (s * adj) := by
  induction ws with
  | nil => simp
  | cons w ws ih =>
    simp only [List.map_cons, List.sum_cons, List.length_cons, ih]
    push_cast
    ring

lemma mapM_length {α β : Type} (f : α → Option β) (l : List α) :
    ∀ ys : List β, l.mapM f = some ys → ys.length = l.length := by
  rw [← List.mapM'_eq_mapM]
  induction l with
  | nil =>
    intro ys h
    simp only [List.mapM'] at h
    cases h
    rfl
  | cons x l ih =>
    intro ys h
    cases hx : f x with
    | none => simp [List.mapM', hx] at h
    | some y =>
      cases hm : l.mapM' f with
      | none => simp [List.mapM', hx, hm] at h
      | some zs =>
        simp only [List.mapM', hx, hm, Option.some_bind] at h
        cases h
        simp only [List.length_cons, ih zs hm]

/-- C1 (amended): for every Row reachable by any sequence of `new()`,
`spacing(v)` and `add(item)` calls (textures resolving), the stored
`raw_width` is consistent with the current item set and spacing: it
equals `spacing * (item_count + 1) + sum of item widths`. The
`raw_height` half of the original claim is false on the code — `add`
stores `item.height()` without the spacing term — see the counterexample
theorem. -/
theorem c1_row_raw_width_consistent (a : AssetMap) (r : Row) (h : Row.Reachable a r) :
    ∃ ws : List ℚ, r.items.mapM (Piece.width a) = some ws ∧
      r.raw_width = r.spacingVal * ((r.items.length : ℚ) + 1) + ws.sum :=
  reachable_consistent a r h

/-- Witness for C1: the concrete reachable row `exRowA2`
(new, spacing 10, add a 50-wide piece) satisfies the raw_width
consistency equation. -/
theorem c1_row_raw_width_consistent_witness :
    ∃ ws : List ℚ, exRowA2.items.mapM (Piece.width exImgA) = some ws ∧
      exRowA2.raw_width = exRowA2.spacingVal * ((exRowA2.items.length : ℚ) + 1) + ws.sum :=
  c1_row_raw_width_consistent exImgA exRowA2 reach_exRowA2

/-- Counterexample for C1 as stated: the row reached by `new()`,
`spacing(10)`, `add(piece of height 5)` stores `raw_height = 20`, but the
`spacing()` recomputation formula `spacing * 2 + max item height` gives
`10 * 2 + 5 = 25`, so the stored raw_height is not consistent. -/
theorem c1_row_raw_height_cex :
    Row.Reachable exImgA exRowA2 ∧
    exRowA2.items.mapM (Piece.height exImgA) = some [5] ∧
    exRowA2.spacingVal = 10 ∧
    exRowA2.raw_height = 20 ∧
    exRowA2.raw_height ≠ exRowA2.spacingVal * 2 + 5 := by
  refine ⟨reach_exRowA2, ?_, rfl, rfl, by norm_num [exRowA2]⟩
  rw [show exRowA2.items = [exPieceA] from rfl, mapM_cons_opt, mapM_nil_opt,
    exPieceA_height]
  rfl

/-- C2: for every reachable non-empty Row with nonzero raw_width, the
total horizontal extent produced by `draw(location)` — the final cursor
x (initial offset `spacing * adjustment` plus, per item,
`item.width() * adjustment + spacing * adjustment`) minus `location.x` —
equals the current viewport width. -/
theorem c2_row_draw_fills_viewport (a : AssetMap) (screen_width : ℚ) (r : Row)
    (location : Vec2) (hr : Row.Reachable a r) (hne : r.items ≠ [])
    (hrw : r.raw_width ≠ 0) :
    ∃ st : List RenderCall × ℚ, Row.draw a screen_width r location = some st ∧
      st.2 - location.x = screen_width := by
  obtain ⟨ws, hws, hsum⟩ := reachable_consistent a r hr
  obtain ⟨calls, hc⟩ := row_foldl_draw a
    (location.y + r.spacingVal * (screen_width / r.raw_width))
    (screen_width / r.raw_width) r.spacingVal r.items ws
    ([], location.x + r.spacingVal * (screen_width / r.raw_width)) hws
  refine ⟨_, hc, ?_⟩
  have hlen : (ws.length : ℚ) = (r.items.length : ℚ) := by
    rw [mapM_length (Piece.width a) r.items ws hws]
  show location.x + r.spacingVal * (screen_width / r.raw_width)
      + (ws.map (fun w => w * (screen_width / r.raw_width)
        + r.spacingVal * (screen_width / r.raw_width))).sum
      - location.x = screen_width
  rw [sum_map_affine, hlen]
  have key : location.x + r.spacingVal * (screen_width / r.raw_width)
      + (ws.sum * (screen_width / r.raw_width)
        + (r.items.length : ℚ) * (r.spacingVal * (screen_width / r.raw_width)))
      - location.x
      = (r.spacingVal * ((r.items.length : ℚ) + 1) + ws.sum)
        * (screen_width / r.raw_width) := by
    ring
  rw [key, ← hsum, mul_comm, div_mul_cancel₀ screen_width hrw]

/-- Witness for C2: the concrete reachable three-item row `exRowB2`
(raw width 220) drawn at the origin with viewport width 880 has total
horizontal extent exactly 880. -/
theorem c2_row_draw_fills_viewport_witness :
    ∃ st : List RenderCall × ℚ, Row.draw exImgB 880 exRowB2 (Vec2.mk 0 0) = some st ∧
      st.2 - (Vec2.mk (0 : ℚ) 0).x = 880 :=
  c2_row_draw_fills_viewport exImgB 880 exRowB2 (Vec2.mk 0 0) reach_exRowB2
    (by simp [exRowB2]) (by norm_num [exRowB2])

/-- C3: for every Piece whose textures resolve, `width()` equals
`right - left` computed by extending `left = min(left, child_offset)` and
`right = max(right, child_offset + child_texture_width)` over the
immediate children only, with `child_offset = child_texture_width *
rel_self.x` (that is the min/max formulation `Piece.widthSpec`);
`rel_parent` is not used (replacing every child rel_parent by any `v`
leaves the result unchanged), and grandchildren contribute nothing
(erasing all children of children leaves the result unchanged); `height`
is symmetric on the y axis. -/
theorem c3_piece_size_formula (a : AssetMap) (p : Piece) (v : Vec2) :
    p.width a = p.widthSpec a ∧ p.height a = p.heightSpec a ∧
    (p.setRelParents v).width a = p.width a ∧
    (p.setRelParents v).height a = p.height a ∧
    (p.stripGrandchildren).width a = p.width a ∧
    (p.stripGrandchildren).height a = p.height a :=
  ⟨width_eq_widthSpec a p, height_eq_heightSpec a p,
   width_setRelParents a p v, height_setRelParents a p v,
   width_strip a p, height_strip a p⟩

/-- C4: `add(item)` appends the item, increases raw_width by exactly
`item.width() + spacing`, and sets raw_height to `item.height()` exactly
when `item.height() + spacing` exceeds the current raw_height, leaving
it unchanged otherwise; spacing is untouched. -/
theorem c4_row_add_effect (a : AssetMap) (r : Row) (item : Piece) (w h : ℚ)
    (hw : item.width a = some w) (hh : item.height a = some h) :
    ∃ r2 : Row, Row.add a r item = some r2 ∧
      r2.items = r.items ++ [item] ∧
      r2.raw_width = r.raw_width + (w + r.spacingVal) ∧
      (h + r.spacingVal > r.raw_height → r2.raw_height = h) ∧
      (¬ h + r.spacingVal > r.raw_height → r2.raw_height = r.raw_height) ∧
      r2.spacingVal = r.spacingVal := by
  refine ⟨{ items := r.items ++ [item],
            raw_width := r.raw_width + (w + r.spacingVal),
            raw_height := if h + r.spacingVal > r.raw_height then h else r.raw_height,
            spacingVal := r.spacingVal }, ?_, rfl, rfl, ?_, ?_, rfl⟩
  · unfold Row.add
    rw [hw, hh]
    rfl
  · intro hc
    exact if_pos hc
  · intro hc
    exact if_neg hc

/-- Witness for C4: adding the 50 by 5 piece to the row with spacing 10
and raw_height 20 bumps raw_width by 60 and leaves raw_height at 20
(since 5 + 10 = 15 does not exceed 20). -/
theorem c4_row_add_effect_witness :
    ∃ r2 : Row, Row.add exImgA exRowA1 exPieceA = some r2 ∧
      r2.items = exRowA1.items ++ [exPieceA] ∧
      r2.raw_width = exRowA1.raw_width + (50 + exRowA1.spacingVal) ∧
      ((5 : ℚ) + exRowA1.spacingVal > exRowA1.raw_height → r2.raw_height = 5) ∧
      (¬ (5 : ℚ) + exRowA1.spacingVal > exRowA1.raw_height →
        r2.raw_height = exRowA1.raw_height) ∧
      r2.spacingVal = exRowA1.spacingVal :=
  c4_row_add_effect exImgA exRowA1 exPieceA 50 5 exPieceA_width exPieceA_height

/-- C5: the incremental add-only raw_width bookkeeping agrees with the
from-scratch `spacing()` recomputation for any item sequence added after
the spacing is set: if spacing(v) produces r1, adding any items produces
r2, and recomputing via spacing(v) on r2 produces r3, then r2 and r3
carry the same raw_width. The concrete 10 / 50-60-70 / 220 instance is
the witness theorem. -/
theorem c5_row_incremental_matches_recompute (a : AssetMap) (r0 r1 r2 r3 : Row)
    (v : ℚ) (ps : List Piece)
    (h1 : Row.setSpacing a r0 v = some r1)
    (h2 : Row.addAll a r1 ps = some r2)
    (h3 : Row.setSpacing a r2 v = some r3) :
    r2.raw_width = r3.raw_width := by
  have hc1 : Row.Consistent a r1 := consistent_setSpacing a r0 v r1 h1
  have hsp1 : r1.spacingVal = v := by
    obtain ⟨ws, hs, _, _, rfl⟩ := setSpacing_eq a r0 v r1 h1
    rfl
  obtain ⟨hc2, hsp2⟩ := addAll_consistent a ps r1 r2 hc1 h2
  obtain ⟨ws, hws, hsum⟩ := hc2
  obtain ⟨ws2, hs2, hw2, hh2, rfl⟩ := setSpacing_eq a r2 v r3 h3
  show r2.raw_width = v * ((r2.items.length : ℚ) + 1) + ws2.sum
  have hws2 : ws2 = ws := by
    rw [hws] at hw2
    exact (Option.some.inj hw2).symm
  rw [hws2, hsum, hsp2, hsp1]

/-- Witness for C5: spacing 10 then adding pieces of widths 50, 60, 70
incrementally yields raw_width 220, equal to the spacing() recomputation
10 * (3 + 1) + (50 + 60 + 70) = 220. -/
theorem c5_row_incremental_matches_recompute_witness :
    exRowB2.raw_width = exRowB3.raw_width ∧ exRowB2.raw_width = 220 :=
  ⟨c5_row_incremental_matches_recompute exImgB Row.new exRowB1 exRowB2 exRowB3 10
    [exPieceB0, exPieceB1, exPieceB2] setSpacing_new_10_B addAll_B setSpacing_B2,
   rfl⟩

/-- C6: `draw(location, adjustment)` issues render calls in the order
parent first (at `location`, size `texture * adjustment`), then each
child in declaration order at `location + parent_scaled * rel_parent +
child_scaled * rel_self` with size `child_texture * adjustment` — this
is exactly the closed form `Piece.drawSpec` — and no calls are issued for
grandchildren: erasing all children of children leaves the call list
unchanged (exactly one level of nesting is drawn). -/
theorem c6_piece_draw_order (a : AssetMap) (p : Piece) (location : Vec2)
    (adjustment : ℚ) :
    p.draw a location adjustment = p.drawSpec a location adjustment ∧
    (p.stripGrandchildren).draw a location adjustment
      = p.draw a location adjustment :=
  ⟨draw_eq_drawSpec a p location adjustment, draw_strip a p location adjustment⟩

/-- C7: `Row::new()` stores raw_width exactly 0, and `height()` computes
`raw_height * (screen_width / raw_width)` with that zero divisor and no
guard — the division by zero is unguarded in the code, there is no
explicit documented policy (in IEEE f32 the result is NaN, not a defined
policy value), contradicting the claim. -/
theorem c7_row_new_height_division_by_zero :
    Row.new.raw_width = 0 ∧
    (∀ screen_width : ℚ, Row.height screen_width Row.new
      = Row.new.raw_height * (screen_width / 0)) :=
  ⟨rfl, fun _ => rfl⟩

/-- C8: a Piece with no children whose texture resolves to dimensions
(texture_width, texture_height) has `width() = texture_width` and
`height() = texture_height` exactly. -/
theorem c8_piece_leaf_size (a : AssetMap) (p : Piece) (t : Tex)
    (hc : p.children = []) (ht : a p.tex = some t) :
    p.width a = some t.width ∧ p.height a = some t.height := by
  rw [width_eq_form, height_eq_form, ht, hc]
  simp [mapM_nil_opt]
  exact ⟨[], rfl⟩

/-- Witness for C8: the childless piece over the 50 by 5 texture has
width 50 and height 5. -/
theorem c8_piece_leaf_size_witness :
    Piece.width exImgA exPieceA = some (Tex.mk 50 5).width ∧
    Piece.height exImgA exPieceA = some (Tex.mk 50 5).height :=
  c8_piece_leaf_size exImgA exPieceA (Tex.mk 50 5) rfl rfl

/-- C9: for every Piece whose texture resolves with non-negative
dimensions, the computed bounding box never shrinks below the root
texture: `width() ≥ texture_width` and `height() ≥ texture_height`, no
matter what children and rel_self fractions are attached. -/
theorem c9_piece_size_ge_texture (a : AssetMap) (p : Piece) (t : Tex) (w h : ℚ)
    (ht : a p.tex = some t) (htw : 0 ≤ t.width) (hth : 0 ≤ t.height)
    (hw : p.width a = some w) (hh : p.height a = some h) :
    t.width ≤ w ∧ t.height ≤ h := by
  rw [width_eq_form, ht] at hw
  rw [height_eq_form, ht] at hh
  cases hm : p.children.mapM (fun c => a c.1.tex) with
  | none =>
    rw [hm] at hw
    exact absurd hw (by simp)
  | some l =>
    rw [hm] at hw hh
    simp only [Option.map_some', Option.some_bind, Option.some.injEq] at hw hh
    constructor
    · rw [← hw]
      have h1 := le_foldl_max
        ((p.children.zip l).map (fun z => z.2.width * z.1.2.2.x + z.2.width)) t.width
      have h2 := foldl_min_le
        ((p.children.zip l).map (fun z => z.2.width * z.1.2.2.x)) 0
      linarith
    · rw [← hh]
      have h1 := le_foldl_max
        ((p.children.zip l).map (fun z => z.2.height * z.1.2.2.y + z.2.height)) t.height
      have h2 := foldl_min_le
        ((p.children.zip l).map (fun z => z.2.height * z.1.2.2.y)) 0
      linarith

/-- Witness for C9: the piece with one child centered on itself
(rel_self.x = -1/2) has width 75 and height 5, at least its own
texture's 50 by 5. -/
theorem c9_piece_size_ge_texture_witness :
    (Tex.mk 50 5).width ≤ 75 ∧ (Tex.mk 50 5).height ≤ 5 :=
  c9_piece_size_ge_texture exImgA exPieceC (Tex.mk 50 5) 75 5 rfl
    (by norm_num) (by norm_num) exPieceC_width exPieceC_height

/-- C10: `spacing(v)` leaves the items sequence unchanged (and stores v
in the spacing field), and `add(item)` leaves the spacing field
unchanged. -/
theorem c10_row_mutation_frame (a : AssetMap) (r r2 r3 : Row) (v : ℚ) (item : Piece)
    (hs : Row.setSpacing a r v = some r2) (ha : Row.add a r item = some r3) :
    r2.items = r.items ∧ r2.spacingVal = v ∧ r3.spacingVal = r.spacingVal := by
  obtain ⟨ws, hsl, _, _, rfl⟩ := setSpacing_eq a r v r2 hs
  obtain ⟨w, ht2, _, _, rfl⟩ := add_eq a r item r3 ha
  exact ⟨rfl, rfl, rfl⟩

/-- Witness for C10: respacing the one-item row to 3 keeps its single
item; adding another piece keeps spacing 10. -/
theorem c10_row_mutation_frame_witness :
    exRowA4.items = exRowA2.items ∧ exRowA4.spacingVal = 3 ∧
    exRowA5.spacingVal = exRowA2.spacingVal :=
  c10_row_mutation_frame exImgA exRowA2 exRowA4 exRowA5 3 exPieceA
    setSpacing_exRowA2_3 add_exRowA2_A
